import Mathlib

/-!
Verification of the speech-notebook capture / batch / transcribe / deliver
pipeline, shallowly embedded from `src/audio_transcribe.py` and
`src/mainWindow.py`.

Modelling conventions:
* time durations (Python floats) are embedded as rationals `ℚ`;
* raw audio bytes are embedded as `List ℕ`, with Python bytes
  concatenation `data += chunk` becoming list append;
* the thread-safe queues are embedded as the finite list of items they
  carry, in order; the blocking `get` loops become structural recursion
  over that list, with an explicit marker for the situation in which the
  list is exhausted without a terminator (the real loop would still be
  blocked, so no shutdown code has run yet);
* the Google client call `client.recognize` is an opaque parameter
  `recognize : List ℕ → Except String RecognizeResponse`; an `Except.error`
  value models the call raising an exception.
-/

namespace SpeechNotebook

/-- Sampling rate, frames per second (`RATE` in audio_transcribe.py). -/
def RATE : ℕ := 16000

/-- Frames per buffer (`CHUNK` in audio_transcribe.py). -/
def CHUNK : ℕ := 1024

/-- Duration of one chunk in seconds: `CHUNK / RATE`. -/
def CHUNK_DURATION : ℚ := (CHUNK : ℚ) / (RATE : ℚ)

/-- The per-request duration cap, seconds (`MAX_LENGTH_PER_REQUEST`).
The source comments: Google charges each request rounded up to the nearest
increment of 15 seconds; we limit each request no more than but close to
15 seconds. -/
def MAX_LENGTH_PER_REQUEST : ℚ := 15

/-- One validated audio chunk handed into the pipeline by the device
callback: the copied bytes plus the measured duration. -/
structure Frame where
  chunk : List ℕ
  duration : ℚ
deriving DecidableEq

/-- One emitted batch: the concatenated bytes put into `out_buff` by
`MicrophoneStream.generate`, together with the accumulated duration
(the value of `length` at the moment the batch was emitted). -/
structure Batch where
  data : List ℕ
  duration : ℚ
deriving DecidableEq

/-- The loop body of `MicrophoneStream.generate`.  The input list is the
content of `_in_buff` in arrival order: `some f` is a validated frame,
`none` is the end-of-input marker put by `MicrophoneStream.stop`.  The
code appends the incoming chunk, adds its duration, and then emits the
accumulated data when `MAX_LENGTH_PER_REQUEST - length < CHUNK_DURATION * 2`;
on the `None` marker it breaks, and the `finally` block emits the (nonempty)
remainder.  An exhausted input list without a `None` means the real loop is
still blocked in `get`, so nothing further is emitted. -/
def generateAux : List (Option Frame) → List ℕ → ℚ → List Batch
  | [], _, _ => []
  | none :: _, data, len => if 0 < len then [Batch.mk data len] else []
  | some f :: rest, data, len =>
    if MAX_LENGTH_PER_REQUEST - (len + f.duration) < CHUNK_DURATION * 2 then
      Batch.mk (data ++ f.chunk) (len + f.duration) :: generateAux rest [] 0
    else
      generateAux rest (data ++ f.chunk) (len + f.duration)

/-- `MicrophoneStream.generate`: the list of batches put into `_out_buff`
for a given content of `_in_buff`. -/
def generate (inq : List (Option Frame)) : List Batch :=
  generateAux inq [] 0

/-- PortAudio status flag `paInputUnderflow` (pyaudio constant). -/
def paInputUnderflow : ℕ := 1

/-- PortAudio status flag `paInputOverflow` (pyaudio constant). -/
def paInputOverflow : ℕ := 2

/-- Observable outcome of one invocation of the device callback
`MicrophoneStream._fill_buffer`: it raises, silently drops the chunk
(returning `paContinue`), or enqueues the copied chunk with its measured
duration into `_in_buff`. -/
inductive CallbackResult where
  | raised
  | dropped
  | enqueued (chunk : List ℕ) (duration : ℚ)
deriving DecidableEq

/-- `MicrophoneStream._fill_buffer`: raises when the status flag equals
`paInputUnderflow` or `paInputOverflow`; otherwise computes
`duration = current_time - input_buffer_adc_time` and drops the chunk when
`duration <= 0 or duration > CHUNK_DURATION * 3`, else enqueues it. -/
def fill_buffer (in_data : List ℕ) (current_time input_buffer_adc_time : ℚ)
    (status_flags : ℕ) : CallbackResult :=
  if status_flags = paInputUnderflow ∨ status_flags = paInputOverflow then
    CallbackResult.raised
  else
    if current_time - input_buffer_adc_time ≤ 0 ∨
        CHUNK_DURATION * 3 < current_time - input_buffer_adc_time then
      CallbackResult.dropped
    else
      CallbackResult.enqueued in_data (current_time - input_buffer_adc_time)

/-- Modelled from the spec wording of claim C7, to be compared with
`fill_buffer`: raise exactly on underflow/overflow status; otherwise with
`duration = current_time - buffer_capture_time`, enqueue exactly when
`0 < duration` and `duration ≤ 3 × nominal chunk duration`, else silently
drop. -/
def callbackSpec (in_data : List ℕ) (current_time input_buffer_adc_time : ℚ)
    (status_flags : ℕ) : CallbackResult :=
  if status_flags = paInputUnderflow ∨ status_flags = paInputOverflow then
    CallbackResult.raised
  else
    if 0 < current_time - input_buffer_adc_time ∧
        current_time - input_buffer_adc_time ≤ CHUNK_DURATION * 3 then
      CallbackResult.enqueued in_data (current_time - input_buffer_adc_time)
    else
      CallbackResult.dropped

/-- One alternative inside a recognition result
(`result.alternatives[i].transcript`). -/
structure SpeechRecognitionAlternative where
  transcript : String
deriving DecidableEq

/-- One result inside a recognition response (`response.results[i]`). -/
structure SpeechRecognitionResult where
  alternatives : List SpeechRecognitionAlternative
deriving DecidableEq

/-- The response of one `client.recognize` call. -/
structure RecognizeResponse where
  results : List SpeechRecognitionResult
deriving DecidableEq

/-- One attempt of `audio_buff.get(timeout=MAX_LENGTH_PER_REQUEST)` inside
`AudioTranscriber._transcribe`: it returns a batch's bytes, returns the
batcher's `None` marker, or raises `queue.Empty` after the timeout. -/
inductive FetchEvent where
  | item (content : List ℕ)
  | sentinel
  | timeout
deriving DecidableEq

/-- How `AudioTranscriber._transcribe` leaves its loop: `normal` on the
batcher's `None` marker, `timedOut` when `get` raises `queue.Empty`,
`exn` when `client.recognize` raises, `blocked` when the modelled event
list is exhausted while the real loop would still be waiting in `get`. -/
inductive WorkerExit where
  | normal
  | timedOut
  | exn (cause : String)
  | blocked
deriving DecidableEq

/-- The transcript the worker extracts from a response: the code emits
`response.results[0].alternatives[0].transcript` exactly when
`response.results` and `results[0].alternatives` are both nonempty. -/
def transcriptOf (resp : RecognizeResponse) : Option String :=
  match resp.results with
  | [] => none
  | r :: _ =>
    match r.alternatives with
    | [] => none
    | a :: _ => some a.transcript

/-- The loop of `AudioTranscriber._transcribe`: for each fetched batch it
calls `recognize` and forwards the extracted transcript (if any) through
the callback; the `None` marker breaks the loop; a raise from `recognize`
or a `get` timeout leaves the loop exceptionally.  Returns the transcripts
passed to the callback inside the loop, and how the loop was left. -/
def transcribeAux (recognize : List ℕ → Except String RecognizeResponse) :
    List FetchEvent → List String × WorkerExit
  | [] => ([], WorkerExit.blocked)
  | FetchEvent.sentinel :: _ => ([], WorkerExit.normal)
  | FetchEvent.timeout :: _ => ([], WorkerExit.timedOut)
  | FetchEvent.item c :: rest =>
    match recognize c with
    | Except.error e => ([], WorkerExit.exn e)
    | Except.ok resp =>
      let tail := transcribeAux recognize rest
      ((transcriptOf resp).toList ++ tail.1, tail.2)

/-- `AudioTranscriber._transcribe` as seen from the text queue: the items
`_run._callback` puts into `text_queue`, in order.  Transcripts arrive as
`some`; on every exit from the loop — normal, timeout, or an exception —
the `finally` block runs `callback(None)`, appending the single `none`
terminator.  If the loop is still blocked the `finally` has not run. -/
def transcribe (recognize : List ℕ → Except String RecognizeResponse)
    (events : List FetchEvent) : List (Option String) × WorkerExit :=
  let r := transcribeAux recognize events
  (r.1.map some ++ (if r.2 = WorkerExit.blocked then [] else [none]), r.2)

/-- `AudioTranscriber._copier`: drains `text_queue` with
`while text := await text_queue.get():` and emits each text.  The walrus
loop stops at the first falsy item, i.e. at `None` or at an empty
string. -/
def copier : List (Option String) → List String
  | [] => []
  | none :: _ => []
  | some s :: rest => if s = "" then [] else s :: copier rest

/-- Whether an embedded `recognize` call succeeds. -/
def exceptOk (r : Except String RecognizeResponse) : Bool :=
  match r with
  | Except.ok _ => true
  | Except.error _ => false

/-- The content of the worker's queue for a batch list followed by the
batcher's `None` marker (the shape `generate` produces). -/
def batchEvents (bs : List (List ℕ)) : List FetchEvent :=
  bs.map FetchEvent.item ++ [FetchEvent.sentinel]

/-- The transcript a single batch yields: `none` both for an empty
outcome and for a raising call (nothing is forwarded in either case). -/
def resultTranscript (recognize : List ℕ → Except String RecognizeResponse)
    (c : List ℕ) : Option String :=
  match recognize c with
  | Except.ok resp => transcriptOf resp
  | Except.error _ => none

/-- Terminal outcome of one batch at the worker, in the taxonomy of the
spec: a transcript, a valid empty outcome, or an error.  The worker's loop
stops at the first raising call, so batches after it get no outcome. -/
inductive BatchOutcome where
  | text (s : String)
  | empty
  | error (cause : String)
deriving DecidableEq

/-- The terminal outcomes the worker actually produces for a queued batch
list: one outcome per processed batch; a raising `recognize` yields an
`error` outcome for that batch and stops the loop, leaving the remaining
batches without outcomes. -/
def workerOutcomes (recognize : List ℕ → Except String RecognizeResponse) :
    List (List ℕ) → List BatchOutcome
  | [] => []
  | c :: rest =>
    match recognize c with
    | Except.error e => [BatchOutcome.error e]
    | Except.ok resp =>
      (match transcriptOf resp with
       | some s => BatchOutcome.text s
       | none => BatchOutcome.empty) :: workerOutcomes recognize rest

/-- The batches a session's batcher emits when the captured frames are
`frames` and `stop()` has put the end-of-input marker. -/
def sessionBatches (frames : List Frame) : List Batch :=
  generate (frames.map some ++ [none])

/-- The byte contents of a session's batches, in order — what is actually
submitted to the worker through `audio_buffer`. -/
def sessionBatchContents (frames : List Frame) : List (List ℕ) :=
  (sessionBatches frames).map Batch.data

/-- The texts the consumer receives through `progress` for one session:
the copier's drain of the text queue the worker filled. -/
def deliveredTexts (frames : List Frame)
    (recognize : List ℕ → Except String RecognizeResponse) : List String :=
  copier (transcribe recognize (batchEvents (sessionBatchContents frames))).1

/-- Consumer-visible events of one session. -/
inductive SessionEvent where
  | text (s : String)
  | pendingMarker
  | finished
deriving DecidableEq

/-- The consumer-visible event trace of one session that is stopped once:
`stop()` emits the pending placeholder marker, the copier delivers the
texts, and `AudioTranscriber._run` emits `finished` after
`asyncio.wait(..., return_when=ALL_COMPLETED)` returns, i.e. after the
generator, the worker and the copier have all completed.  The interleaving
of the marker with the texts is not modelled; `finished` is last. -/
def sessionTrace (frames : List Frame)
    (recognize : List ℕ → Except String RecognizeResponse) : List SessionEvent :=
  SessionEvent.pendingMarker ::
    ((deliveredTexts frames recognize).map SessionEvent.text ++ [SessionEvent.finished])

/-- The observable end state of a session in which `stop()` was called
`stops` times, the observables named by the idempotence claim: the
placeholder-marker events emitted (one per `AudioTranscriber.stop` call),
the end-of-input markers enqueued (one per `MicrophoneStream.stop` call),
the batches the batcher emitted, and the texts delivered. -/
structure SessionObservables where
  pendingMarkers : ℕ
  sentinels : ℕ
  batches : List Batch
  deliveredTexts : List String
deriving DecidableEq

/-- The session's observable end state after `stops` calls of `stop()`:
each call emits the placeholder through `progress` and puts one `None`
into `_in_buff`; the batcher then consumes the frames followed by those
markers, and the worker/copier pipeline runs on the emitted batches. -/
def sessionObservables (frames : List Frame)
    (recognize : List ℕ → Except String RecognizeResponse) (stops : ℕ) :
    SessionObservables :=
  let bs := generate (frames.map some ++ List.replicate stops none)
  { pendingMarkers := stops
    sentinels := stops
    batches := bs
    deliveredTexts := copier (transcribe recognize (batchEvents (bs.map Batch.data))).1 }

/-- All positions at which `pat` occurs in `s`, ascending. -/
def occurrences (pat s : List Char) : List ℕ :=
  (List.range s.length).filter (fun i => pat.isPrefixOf (s.drop i))

/-- The literal prefix of the regex in `MainWindow._cleanup_tags`. -/
def OPEN_TAG : List Char := "<span style=".toList

/-- The literal suffix of the regex in `MainWindow._cleanup_tags`. -/
def CLOSE_TAG : List Char := "</span>".toList

/-- `MainWindow._cleanup_tags` on the document HTML, i.e.
`re.sub("<span style=.+</span>", "", doc_html)` for a newline-free
document (Qt renders the body on one line; `.` does not cross newlines).
Semantics of that substitution: the leftmost match starts at the first
occurrence of `<span style=` that is followed, at distance at least the
pattern length plus one (`.+` needs a character), by an occurrence of
`</span>`; the greedy `.+` extends the match to the last such `</span>`
in the string.  Since no `</span>` remains after the match, there is no
second match, so one splice is the whole substitution. -/
def cleanup_tags (s : List Char) : List Char :=
  match (occurrences OPEN_TAG s).filter
      (fun i => (occurrences CLOSE_TAG s).any
        (fun j => decide (i + OPEN_TAG.length + 1 ≤ j))) with
  | [] => s
  | i :: _ =>
    match ((occurrences CLOSE_TAG s).filter
        (fun j => decide (i + OPEN_TAG.length + 1 ≤ j))).getLast? with
    | none => s
    | some j => s.take i ++ s.drop (j + CLOSE_TAG.length)

/-! Helper lemmas, shared by several claim proofs. -/

/-- Unfolding lemma for the worker's queue shape. -/
theorem batchEvents_cons (c : List ℕ) (l : List (List ℕ)) :
    batchEvents (c :: l) = FetchEvent.item c :: batchEvents l := by
  simp [batchEvents]

/-- The copier's drain of a queue holding transcripts followed by the
terminal `none` is the longest transcript prefix without an empty
string. -/
theorem copier_append_none (ts : List String) (rest : List (Option String)) :
    copier (ts.map some ++ none :: rest) = ts.takeWhile (fun s => s != "") := by
  induction ts with
  | nil => simp [copier]
  | cons a l ih =>
    by_cases h : a = ""
    · subst h
      simp [copier, List.takeWhile_cons]
    · have hb : (a != "") = true := bne_iff_ne.mpr h
      simp [copier, h, List.takeWhile_cons, hb, ih]

/-- When every queued batch's recognition call succeeds, the worker's
loop emits exactly the per-batch transcripts, in queue order, and leaves
normally on the batcher's marker. -/
theorem transcribeAux_ok (recognize : List ℕ → Except String RecognizeResponse)
    (bs : List (List ℕ)) (hok : ∀ c ∈ bs, exceptOk (recognize c) = true) :
    transcribeAux recognize (batchEvents bs)
      = (bs.filterMap (resultTranscript recognize), WorkerExit.normal) := by
  induction bs with
  | nil => simp [batchEvents, transcribeAux]
  | cons c l ih =>
    have hc := hok c (by simp)
    have hl : ∀ x ∈ l, exceptOk (recognize x) = true := fun x hx => hok x (by simp [hx])
    cases hrec : recognize c with
    | error e => rw [hrec] at hc; simp [exceptOk] at hc
    | ok resp =>
      have hres : resultTranscript recognize c = transcriptOf resp := by
        rw [resultTranscript, hrec]
      rw [batchEvents_cons]
      simp only [transcribeAux, hrec, ih hl, List.filterMap_cons, hres]
      cases transcriptOf resp <;> simp [Option.toList]

/-- On a queue of batches followed by the batcher's marker the worker
never stays blocked. -/
theorem transcribeAux_not_blocked
    (recognize : List ℕ → Except String RecognizeResponse) (bs : List (List ℕ)) :
    (transcribeAux recognize (batchEvents bs)).2 ≠ WorkerExit.blocked := by
  induction bs with
  | nil => simp [batchEvents, transcribeAux]
  | cons c l ih =>
    rw [batchEvents_cons]
    cases hrec : recognize c with
    | error e => simp [transcribeAux, hrec]
    | ok resp => simpa [transcribeAux, hrec] using ih

/-- If the first raising recognition call is on batch `b`, the worker's
loop emits the transcripts of the batches before `b` and leaves with the
exception; the batches after `b` are never examined. -/
theorem transcribeAux_fail (recognize : List ℕ → Except String RecognizeResponse)
    (pre : List (List ℕ)) (b : List ℕ) (post : List (List ℕ)) (e : String)
    (hok : ∀ c ∈ pre, exceptOk (recognize c) = true)
    (hb : recognize b = Except.error e) :
    transcribeAux recognize (batchEvents (pre ++ b :: post))
      = (pre.filterMap (resultTranscript recognize), WorkerExit.exn e) := by
  induction pre with
  | nil =>
    rw [List.nil_append, batchEvents_cons]
    simp [transcribeAux, hb]
  | cons c l ih =>
    have hc := hok c (by simp)
    have hl : ∀ x ∈ l, exceptOk (recognize x) = true := fun x hx => hok x (by simp [hx])
    cases hrec : recognize c with
    | error e2 => rw [hrec] at hc; simp [exceptOk] at hc
    | ok resp =>
      have hres : resultTranscript recognize c = transcriptOf resp := by
        rw [resultTranscript, hrec]
      rw [List.cons_append, batchEvents_cons]
      simp only [transcribeAux, hrec, ih hl, List.filterMap_cons, hres]
      cases transcriptOf resp <;> simp [Option.toList]

/-- Extra end-of-input markers behind the first one are never consumed:
the batcher's output only depends on the queue up to the first marker. -/
theorem generateAux_replicate (fs : List Frame) (n : ℕ) (hn : 1 ≤ n)
    (data : List ℕ) (len : ℚ) :
    generateAux (fs.map some ++ List.replicate n none) data len
      = generateAux (fs.map some ++ [none]) data len := by
  induction fs generalizing data len with
  | nil =>
    cases n with
    | zero => exact absurd hn (by simp)
    | succ m => simp [List.replicate_succ, generateAux]
  | cons f l ih =>
    simp only [List.map_cons, List.cons_append, generateAux]
    split
    · exact congrArg (List.cons _) (ih [] 0)
    · exact ih _ _

/-- When every submitted batch's recognition call succeeds, the worker
produces a terminal outcome for each of them. -/
theorem workerOutcomes_length (recognize : List ℕ → Except String RecognizeResponse)
    (bs : List (List ℕ)) (hok : ∀ c ∈ bs, exceptOk (recognize c) = true) :
    (workerOutcomes recognize bs).length = bs.length := by
  induction bs with
  | nil => rfl
  | cons c l ih =>
    have hc := hok c (by simp)
    have hl : ∀ x ∈ l, exceptOk (recognize x) = true := fun x hx => hok x (by simp [hx])
    cases hrec : recognize c with
    | error e => rw [hrec] at hc; simp [exceptOk] at hc
    | ok resp =>
      simp only [workerOutcomes, hrec, List.length_cons, ih hl]

/-! Claim theorems.  The rational operations are unsealed so that closed
computations can be settled by `decide`. -/

attribute [local semireducible] Rat.add Rat.mul Rat.inv Rat.sub

/-- C1: the strict cap invariant fails on the code.  Eighty validated
frames of 0.188 s each (each duration is positive and at most
`CHUNK_DURATION * 3 = 0.192`) drive the batcher to emit a batch of
duration `376/25 = 15.04` seconds, which is not strictly below — indeed
not even at or below — `MAX_LENGTH_PER_REQUEST = 15`: the flush check
runs only after a frame has been appended, so the accumulated duration
can cross the cap before the batch is closed. -/
theorem C1_cap_exceeded :
    (∀ f ∈ List.replicate 80 (Frame.mk [] (47/250)),
        0 < f.duration ∧ f.duration ≤ CHUNK_DURATION * 3)
    ∧ (generate ((List.replicate 80 (Frame.mk [] (47/250))).map some ++ [none])).map
        Batch.duration = [376/25]
    ∧ ¬ ((376 : ℚ)/25 < MAX_LENGTH_PER_REQUEST) := by
  decide

/-- C2: order preservation.  When every queued batch's recognition call
succeeds, the worker forwards the per-batch transcripts exactly in batch
order, and the copier delivers them in that same order (up to the
empty-string truncation established separately): delivery order is batch
order because one worker drains one queue sequentially. -/
theorem C2_order_preservation
    (recognize : List ℕ → Except String RecognizeResponse) (bs : List (List ℕ))
    (hok : ∀ c ∈ bs, exceptOk (recognize c) = true) :
    (transcribeAux recognize (batchEvents bs)).1
      = bs.filterMap (resultTranscript recognize)
    ∧ copier (transcribe recognize (batchEvents bs)).1
        = (bs.filterMap (resultTranscript recognize)).takeWhile (fun s => s != "") := by
  have h := transcribeAux_ok recognize bs hok
  refine ⟨by rw [h], ?_⟩
  have h1 : (transcribe recognize (batchEvents bs)).1
      = (bs.filterMap (resultTranscript recognize)).map some ++ [none] := by
    simp [transcribe, h]
  rw [h1]
  simpa using copier_append_none (bs.filterMap (resultTranscript recognize)) []

/-- C2 witness: two batches, both succeeding with transcript `hi`, are
delivered in order. -/
theorem C2_order_preservation_witness :
    (∀ c ∈ [[0], [1]],
        exceptOk ((fun _ => Except.ok (RecognizeResponse.mk
          [SpeechRecognitionResult.mk [SpeechRecognitionAlternative.mk ("hi")]])) c) = true)
    ∧ ((transcribeAux (fun _ => Except.ok (RecognizeResponse.mk
          [SpeechRecognitionResult.mk [SpeechRecognitionAlternative.mk ("hi")]]))
          (batchEvents [[0], [1]])).1
        = [[0], [1]].filterMap (resultTranscript (fun _ => Except.ok (RecognizeResponse.mk
            [SpeechRecognitionResult.mk [SpeechRecognitionAlternative.mk ("hi")]])))
       ∧ copier (transcribe (fun _ => Except.ok (RecognizeResponse.mk
            [SpeechRecognitionResult.mk [SpeechRecognitionAlternative.mk ("hi")]]))
            (batchEvents [[0], [1]])).1
          = ([[0], [1]].filterMap (resultTranscript (fun _ => Except.ok (RecognizeResponse.mk
              [SpeechRecognitionResult.mk [SpeechRecognitionAlternative.mk ("hi")]])))).takeWhile
              (fun s => s != "")) :=
  ⟨by decide, C2_order_preservation _ _ (by decide)⟩

/-- C7: the callback contract, proved as an equivalence between the
embedded `fill_buffer` and `callbackSpec`, the function written from the
claim's wording: raise exactly on underflow/overflow status, enqueue
exactly when `0 < duration ≤ CHUNK_DURATION * 3`, silently drop
otherwise. -/
theorem C7_callback_equiv (in_data : List ℕ)
    (current_time input_buffer_adc_time : ℚ) (status_flags : ℕ) :
    fill_buffer in_data current_time input_buffer_adc_time status_flags
      = callbackSpec in_data current_time input_buffer_adc_time status_flags := by
  unfold fill_buffer callbackSpec
  by_cases h1 : status_flags = paInputUnderflow ∨ status_flags = paInputOverflow
  · rw [if_pos h1, if_pos h1]
  · rw [if_neg h1, if_neg h1]
    by_cases h2 : current_time - input_buffer_adc_time ≤ 0 ∨
        CHUNK_DURATION * 3 < current_time - input_buffer_adc_time
    · have h3 : ¬ (0 < current_time - input_buffer_adc_time ∧
          current_time - input_buffer_adc_time ≤ CHUNK_DURATION * 3) := by
        push_neg
        intro hpos
        rcases h2 with h | h
        · exact absurd hpos (not_lt.mpr h)
        · exact h
      rw [if_pos h2, if_neg h3]
    · push_neg at h2
      have h3 : 0 < current_time - input_buffer_adc_time ∧
          current_time - input_buffer_adc_time ≤ CHUNK_DURATION * 3 := h2
      have hA : ¬ (current_time - input_buffer_adc_time ≤ 0 ∨
          CHUNK_DURATION * 3 < current_time - input_buffer_adc_time) := by
        push_neg
        exact h2
      rw [if_neg hA, if_pos h3]

/-- C9: on every modelled exit path of the worker — the batcher's marker,
a raising recognition call, or a `get` timeout — exactly one terminal
`none` is forwarded downstream, and it is the last item; while the loop is
still blocked no `none` has been forwarded. -/
theorem C9_terminal_sentinel
    (recognize : List ℕ → Except String RecognizeResponse) (events : List FetchEvent) :
    (transcribe recognize events).1.count (none : Option String)
      = (if (transcribeAux recognize events).2 = WorkerExit.blocked then 0 else 1)
    ∧ ((transcribeAux recognize events).2 = WorkerExit.blocked
        ∨ (transcribe recognize events).1.getLast? = some (none : Option String)) := by
  have hcount : ((transcribeAux recognize events).1.map some).count (none : Option String) = 0 :=
    List.count_eq_zero.mpr (by simp)
  by_cases hb : (transcribeAux recognize events).2 = WorkerExit.blocked
  · exact ⟨by simp [transcribe, hb, hcount], Or.inl hb⟩
  · refine ⟨?_, Or.inr ?_⟩
    · simp [transcribe, hb, List.count_append, hcount]
    · simp [transcribe, hb]

/-- C10: the copier's walrus loop `while text := await text_queue.get():`
treats an empty-string transcript exactly like the terminal `none`: the
queue the worker filled is delivered only up to (and excluding) the first
empty transcript — the delivered sequence is the longest prefix of the
produced transcripts containing no empty string, while the worker itself
keeps transcribing the remaining batches. -/
theorem C10_empty_transcript_ends_delivery
    (recognize : List ℕ → Except String RecognizeResponse) (bs : List (List ℕ)) :
    copier (transcribe recognize (batchEvents bs)).1
      = ((transcribeAux recognize (batchEvents bs)).1).takeWhile (fun s => s != "") := by
  have hnb := transcribeAux_not_blocked recognize bs
  have h1 : (transcribe recognize (batchEvents bs)).1
      = ((transcribeAux recognize (batchEvents bs)).1).map some ++ [none] := by
    simp [transcribe, hnb]
  rw [h1]
  simpa using copier_append_none ((transcribeAux recognize (batchEvents bs)).1) []

/-- C3, counterexample: six 5-second frames produce two batches; the
recognition call raises on the first one, so the worker aborts and the
second submitted batch never receives a terminal outcome — yet the
completion signal still fires (exactly once).  This refutes the claim
that completion fires only after every submitted batch has produced a
terminal outcome. -/
theorem C3_counterexample :
    (sessionTrace
        [Frame.mk [0] 5, Frame.mk [1] 5, Frame.mk [2] 5,
         Frame.mk [3] 5, Frame.mk [4] 5, Frame.mk [5] 5]
        (fun c => if c = [0, 1, 2] then Except.error ("boom")
          else Except.ok (RecognizeResponse.mk
            [SpeechRecognitionResult.mk [SpeechRecognitionAlternative.mk ("t")]]))).count
      SessionEvent.finished = 1
    ∧ (workerOutcomes
        (fun c => if c = [0, 1, 2] then Except.error ("boom")
          else Except.ok (RecognizeResponse.mk
            [SpeechRecognitionResult.mk [SpeechRecognitionAlternative.mk ("t")]]))
        (sessionBatchContents
          [Frame.mk [0] 5, Frame.mk [1] 5, Frame.mk [2] 5,
           Frame.mk [3] 5, Frame.mk [4] 5, Frame.mk [5] 5])).length
      ≠ (sessionBatchContents
          [Frame.mk [0] 5, Frame.mk [1] 5, Frame.mk [2] 5,
           Frame.mk [3] 5, Frame.mk [4] 5, Frame.mk [5] 5]).length := by
  decide

/-- C3, amended: the completion signal is emitted exactly once per
session and as the final event, and — provided no recognition call raises
— every batch submitted to the worker has produced a terminal outcome
by then; after a raising call the remaining submitted batches are
abandoned without outcomes although completion still fires. -/
theorem C3_completion (frames : List Frame)
    (recognize : List ℕ → Except String RecognizeResponse)
    (hok : ∀ c ∈ sessionBatchContents frames, exceptOk (recognize c) = true) :
    (sessionTrace frames recognize).count SessionEvent.finished = 1
    ∧ (sessionTrace frames recognize).getLast? = some SessionEvent.finished
    ∧ (workerOutcomes recognize (sessionBatchContents frames)).length
        = (sessionBatchContents frames).length := by
  refine ⟨?_, ?_, workerOutcomes_length recognize _ hok⟩
  · have h0 : ((deliveredTexts frames recognize).map SessionEvent.text).count
        SessionEvent.finished = 0 :=
      List.count_eq_zero.mpr (by simp)
    simp [sessionTrace, List.count_append, h0]
  · rw [sessionTrace,
      show SessionEvent.pendingMarker ::
            ((deliveredTexts frames recognize).map SessionEvent.text ++ [SessionEvent.finished])
          = (SessionEvent.pendingMarker ::
              (deliveredTexts frames recognize).map SessionEvent.text) ++ [SessionEvent.finished]
        from rfl]
    exact List.getLast?_concat _

/-- C3 witness for the amended statement: three 5-second frames, one
batch, a succeeding call. -/
theorem C3_completion_witness :
    (∀ c ∈ sessionBatchContents [Frame.mk [0] 5, Frame.mk [1] 5, Frame.mk [2] 5],
        exceptOk ((fun _ => Except.ok (RecognizeResponse.mk
          [SpeechRecognitionResult.mk [SpeechRecognitionAlternative.mk ("t")]])) c) = true)
    ∧ ((sessionTrace [Frame.mk [0] 5, Frame.mk [1] 5, Frame.mk [2] 5]
          (fun _ => Except.ok (RecognizeResponse.mk
            [SpeechRecognitionResult.mk [SpeechRecognitionAlternative.mk ("t")]]))).count
        SessionEvent.finished = 1
       ∧ (sessionTrace [Frame.mk [0] 5, Frame.mk [1] 5, Frame.mk [2] 5]
          (fun _ => Except.ok (RecognizeResponse.mk
            [SpeechRecognitionResult.mk [SpeechRecognitionAlternative.mk ("t")]]))).getLast?
          = some SessionEvent.finished
       ∧ (workerOutcomes
          (fun _ => Except.ok (RecognizeResponse.mk
            [SpeechRecognitionResult.mk [SpeechRecognitionAlternative.mk ("t")]]))
          (sessionBatchContents [Frame.mk [0] 5, Frame.mk [1] 5, Frame.mk [2] 5])).length
          = (sessionBatchContents [Frame.mk [0] 5, Frame.mk [1] 5, Frame.mk [2] 5]).length) :=
  ⟨by decide, C3_completion _ _ (by decide)⟩

/-- C4, counterexample: three queued batches, the recognition call raises
on the second.  The worker forwards only the first batch's transcript and
the terminal marker: no `Error` item is produced for the failing batch,
and the third batch — which would have yielded transcript `t3` — is never
transcribed.  This refutes the claim that a failure is surfaced as an
error result for that batch only while subsequent batches continue. -/
theorem C4_counterexample :
    (transcribe
        (fun c => if c = [1] then Except.error ("boom")
          else if c = [0] then Except.ok (RecognizeResponse.mk
            [SpeechRecognitionResult.mk [SpeechRecognitionAlternative.mk ("t1")]])
          else Except.ok (RecognizeResponse.mk
            [SpeechRecognitionResult.mk [SpeechRecognitionAlternative.mk ("t3")]]))
        (batchEvents [[0], [1], [2]])).1
      = [some ("t1"), none]
    ∧ resultTranscript
        (fun c => if c = [1] then Except.error ("boom")
          else if c = [0] then Except.ok (RecognizeResponse.mk
            [SpeechRecognitionResult.mk [SpeechRecognitionAlternative.mk ("t1")]])
          else Except.ok (RecognizeResponse.mk
            [SpeechRecognitionResult.mk [SpeechRecognitionAlternative.mk ("t3")]]))
        [2] = some ("t3")
    ∧ some ("t3") ∉ (transcribe
        (fun c => if c = [1] then Except.error ("boom")
          else if c = [0] then Except.ok (RecognizeResponse.mk
            [SpeechRecognitionResult.mk [SpeechRecognitionAlternative.mk ("t1")]])
          else Except.ok (RecognizeResponse.mk
            [SpeechRecognitionResult.mk [SpeechRecognitionAlternative.mk ("t3")]]))
        (batchEvents [[0], [1], [2]])).1 := by
  decide

/-- C4, amended: when the first raising recognition call is on batch `b`,
the worker's loop terminates with that exception: downstream it forwards
exactly the transcripts of the batches before `b` followed by the single
terminal marker — no error item for `b`, and none of the batches queued
after `b` are transcribed. -/
theorem C4_failure_aborts
    (recognize : List ℕ → Except String RecognizeResponse)
    (pre : List (List ℕ)) (b : List ℕ) (post : List (List ℕ)) (e : String)
    (hok : ∀ c ∈ pre, exceptOk (recognize c) = true)
    (hb : recognize b = Except.error e) :
    (transcribe recognize (batchEvents (pre ++ b :: post))).1
      = (pre.filterMap (resultTranscript recognize)).map some ++ [none]
    ∧ (transcribe recognize (batchEvents (pre ++ b :: post))).2 = WorkerExit.exn e := by
  have h := transcribeAux_fail recognize pre b post e hok hb
  constructor <;> simp [transcribe, h]

/-- C4 witness for the amended statement. -/
theorem C4_failure_aborts_witness :
    ((∀ c ∈ [[0]], exceptOk ((fun c => if c = [1] then Except.error ("boom")
        else Except.ok (RecognizeResponse.mk
          [SpeechRecognitionResult.mk [SpeechRecognitionAlternative.mk ("t1")]])) c) = true)
     ∧ (fun c => if c = [1] then Except.error ("boom")
        else Except.ok (RecognizeResponse.mk
          [SpeechRecognitionResult.mk [SpeechRecognitionAlternative.mk ("t1")]])) [1]
        = Except.error ("boom"))
    ∧ ((transcribe (fun c => if c = [1] then Except.error ("boom")
          else Except.ok (RecognizeResponse.mk
            [SpeechRecognitionResult.mk [SpeechRecognitionAlternative.mk ("t1")]]))
          (batchEvents ([[0]] ++ [1] :: [[2]]))).1
        = ([[0]].filterMap (resultTranscript (fun c => if c = [1] then Except.error ("boom")
            else Except.ok (RecognizeResponse.mk
              [SpeechRecognitionResult.mk [SpeechRecognitionAlternative.mk ("t1")]])))).map
            some ++ [none]
       ∧ (transcribe (fun c => if c = [1] then Except.error ("boom")
          else Except.ok (RecognizeResponse.mk
            [SpeechRecognitionResult.mk [SpeechRecognitionAlternative.mk ("t1")]]))
          (batchEvents ([[0]] ++ [1] :: [[2]]))).2 = WorkerExit.exn ("boom")) :=
  ⟨⟨by decide, by rfl⟩, C4_failure_aborts _ _ _ _ _ (by decide) (by rfl)⟩

/-- C5, counterexample: for three 5-second frames the batcher does not
emit a 10-second batch followed by a 5-second batch — the flush check
runs only after appending, so nothing is flushed before frame 3 is
appended. -/
theorem C5_counterexample :
    (generate [some (Frame.mk [0] 5), some (Frame.mk [1] 5),
        some (Frame.mk [2] 5), none]).map Batch.duration ≠ [10, 5] := by
  decide

/-- C5, amended: the batcher appends first and flushes afterwards, when
the remaining capacity drops below `CHUNK_DURATION * 2`; on three
5-second frames it therefore appends all three, reaching 15 s — at which
point the remaining capacity is 0 — and emits a single batch of duration
15 s containing all three frames, with nothing left for the end-of-input
flush. -/
theorem C5_amended_single_batch :
    generate [some (Frame.mk [0] 5), some (Frame.mk [1] 5),
        some (Frame.mk [2] 5), none]
      = [Batch.mk [0, 1, 2] 15] := by
  decide

/-- C6, counterexample: calling `stop()` twice is observably different
from calling it once — `AudioTranscriber.stop` unconditionally emits the
placeholder marker and enqueues an end-of-input marker on every call, so
after two calls the consumer has received two placeholder-marker events
and two end-of-input markers were enqueued, not one. -/
theorem C6_counterexample :
    sessionObservables [] (fun _ => Except.ok (RecognizeResponse.mk [])) 2
      ≠ sessionObservables [] (fun _ => Except.ok (RecognizeResponse.mk [])) 1 := by
  decide

/-- C6, amended: a repeated `stop()` leaves the batching pipeline's
output unchanged — the extra end-of-input markers are enqueued behind the
first one and never consumed, so the emitted batches and the delivered
texts are those of a single stop — but each extra call emits one more
placeholder-marker event and enqueues one more marker, so the observable
end state is not identical. -/
theorem C6_stop_amended (frames : List Frame)
    (recognize : List ℕ → Except String RecognizeResponse) (n : ℕ) (hn : 1 ≤ n) :
    (sessionObservables frames recognize n).batches
      = (sessionObservables frames recognize 1).batches
    ∧ (sessionObservables frames recognize n).deliveredTexts
        = (sessionObservables frames recognize 1).deliveredTexts
    ∧ (sessionObservables frames recognize n).pendingMarkers = n
    ∧ (sessionObservables frames recognize n).sentinels = n := by
  have hb : generate (frames.map some ++ List.replicate n none)
      = generate (frames.map some ++ List.replicate 1 none) := by
    rw [generate, generate, generateAux_replicate frames n hn [] 0]
    rfl
  refine ⟨?_, ?_, rfl, rfl⟩
  · show generate (frames.map some ++ List.replicate n none)
      = generate (frames.map some ++ List.replicate 1 none)
    exact hb
  · show copier (transcribe recognize (batchEvents
        ((generate (frames.map some ++ List.replicate n none)).map Batch.data))).1
      = copier (transcribe recognize (batchEvents
        ((generate (frames.map some ++ List.replicate 1 none)).map Batch.data))).1
    rw [hb]

/-- C6 witness for the amended statement, at two stops of an empty
session. -/
theorem C6_stop_amended_witness :
    1 ≤ 2
    ∧ ((sessionObservables [] (fun _ => Except.ok (RecognizeResponse.mk [])) 2).batches
        = (sessionObservables [] (fun _ => Except.ok (RecognizeResponse.mk [])) 1).batches
       ∧ (sessionObservables [] (fun _ => Except.ok (RecognizeResponse.mk [])) 2).deliveredTexts
          = (sessionObservables [] (fun _ => Except.ok (RecognizeResponse.mk [])) 1).deliveredTexts
       ∧ (sessionObservables [] (fun _ => Except.ok (RecognizeResponse.mk [])) 2).pendingMarkers = 2
       ∧ (sessionObservables [] (fun _ => Except.ok (RecognizeResponse.mk [])) 2).sentinels = 2) :=
  ⟨by decide, C6_stop_amended [] _ 2 (by decide)⟩

/-- C8, counterexample: a document holding the placeholder marker and one
other styled span.  The greedy substitution deletes everything from the
first `<span style=` through the last `</span>`, wiping out the other
span and the intervening text `C`: the result is `AE`, not the document
with only the marker region removed (the quoting style inside the
marker's attribute is irrelevant to the matched patterns). -/
theorem C8_counterexample :
    cleanup_tags (("A<span style=x</span>C<span style=\"background-color: #ADD8E6;\">...</span>E").toList)
      = ("AE").toList
    ∧ ("AE").toList ≠ ("A<span style=x</span>CE").toList := by
  decide

/-- C8, amended: only when the placeholder is the sole styled span — i.e.
the document has exactly one occurrence of `<span style=` and exactly one
of `</span>`, with a nonempty body between them — does the cleanup remove
exactly the marker region `[i, j + 7)` and leave every other character
unchanged. -/
theorem C8_cleanup_amended (s : List Char) (i j : ℕ)
    (hopen : occurrences OPEN_TAG s = [i])
    (hclose : occurrences CLOSE_TAG s = [j])
    (hij : i + OPEN_TAG.length + 1 ≤ j) :
    cleanup_tags s = s.take i ++ s.drop (j + CLOSE_TAG.length) := by
  have hfilter1 : (occurrences OPEN_TAG s).filter
      (fun i2 => (occurrences CLOSE_TAG s).any
        (fun j2 => decide (i2 + OPEN_TAG.length + 1 ≤ j2))) = [i] := by
    rw [hopen, hclose]
    simp [hij]
  have hfilter2 : ((occurrences CLOSE_TAG s).filter
      (fun j2 => decide (i + OPEN_TAG.length + 1 ≤ j2))) = [j] := by
    rw [hclose]
    simp [hij]
  simp only [cleanup_tags, hfilter1, hfilter2, List.getLast?_singleton]

/-- C8 witness for the amended statement, on a minimal single-span
document. -/
theorem C8_cleanup_amended_witness :
    (occurrences OPEN_TAG (("A<span style=x</span>B").toList) = [1]
     ∧ occurrences CLOSE_TAG (("A<span style=x</span>B").toList) = [14]
     ∧ 1 + OPEN_TAG.length + 1 ≤ 14)
    ∧ cleanup_tags (("A<span style=x</span>B").toList)
        = (("A<span style=x</span>B").toList).take 1
          ++ (("A<span style=x</span>B").toList).drop (14 + CLOSE_TAG.length) :=
  ⟨⟨by decide, by decide, by decide⟩,
    C8_cleanup_amended _ 1 14 (by decide) (by decide) (by decide)⟩

end SpeechNotebook
